import Mathlib

/-!
# Chaining methods of `glog.Logger` (os/glog/glog_logger_chaining_efun.go)

The file holds the fourteen chaining methods of `*Logger`.  Each of them picks a
working logger (a clone when the receiver has no parent, the receiver itself
otherwise), applies one configuration change to it and returns it.

Loggers are heap objects reached through pointers, so the embedding passes an
explicit heap: a method takes the heap and the receiver's address and returns
the address it hands back together with the heap after the call.  A method
returns `none` exactly where the Go code would dereference an address that
holds no logger.

The struct declarations, `Clone`, the plain setters, `gfile.Join`, the flag
constants and the level-name table are not part of the file; they are modelled
from the specification or taken as parameters (`Deps`), and marked as such.
-/

namespace Glog

/-- Address of a `Logger` on the heap (`*Logger`). -/
abbrev Ptr := Nat

/-- A non-nil `context.Context` value, identified by a handle. -/
abbrev Context := Nat

/-- A context key (`interface{}`). -/
abbrev Key := String

/-- A non-nil `io.Writer` value, identified by a handle. -/
abbrev WriterRef := Nat

/-- Modelled from the spec: the configuration record of a logger; its declaration
is not in the file.  The fields are the independent option fields the
specification lists; `Path`, `StdoutPrint` and `Flags` are the three the file
reads or writes directly, and `Category` is written by no method of the file. -/
structure Config where
  CtxKeys : List Key
  Writer : Option WriterRef
  Path : String
  Category : String
  File : String
  Level : Int
  Flags : Nat
  StdoutPrint : Bool
  HeaderPrint : Bool
  StackEnabled : Bool
  StackSkip : Int
  StackFilter : String
  AsyncEnabled : Bool
  deriving DecidableEq, Repr

/-- Modelled from the spec: the `Logger` struct; its declaration is not in the
file.  The file uses the three fields `ctx`, `parent` and `config`; `parent` is
absent for a root logger and present for a derived one. -/
structure Logger where
  ctx : Option Context
  parent : Option Ptr
  config : Config
  deriving DecidableEq, Repr

/-- An `error` value returned by a fallible setter. -/
inductive Err where
  | invalidPath (path : String)
  | invalidLevel (levelStr : String)
  deriving DecidableEq, Repr

/-- The program state the methods act on: the loggers allocated so far (a pointer
is an index into `heap`) and what has been handed to `intlog.Error`. -/
structure World where
  heap : List Logger
  intlog : List Err
  deriving DecidableEq, Repr

/-- What the file takes from the rest of the package and from `gfile`, and whose
definition is not in the file: the two flag constants, the path-join utility,
which directories can be set, and the level-name table. -/
structure Deps where
  F_FILE_LONG : Nat
  F_FILE_SHORT : Nat
  Join : String → String → String
  pathOk : String → Bool
  levelOf : String → Option Int

/-- Read through a pointer: `*p`. -/
def World.load (w : World) (p : Ptr) : Option Logger :=
  w.heap[p]?

/-- Overwrite the object a pointer refers to. -/
def World.store (w : World) (p : Ptr) (v : Logger) : World :=
  { w with heap := w.heap.set p v }

/-- Update the object a pointer refers to; `none` when the pointer refers to no
logger. -/
def World.modify (w : World) (p : Ptr) (f : Logger → Logger) : Option World :=
  match w.load p with
  | none => none
  | some v => some (w.store p (f v))

/-- The call `intlog.Error(err)`. -/
def World.logError (w : World) (e : Err) : World :=
  { w with intlog := w.intlog ++ [e] }

/-- Modelled from the spec: `Logger.Clone` is not in the file.  The specification
gives `working = this.clone()  // deep-copy of config; working.parent = this`:
a fresh logger with a value copy of the receiver's context and configuration
and the receiver as parent. -/
def Clone (w : World) (l : Ptr) : Option (Ptr × World) :=
  match w.load l with
  | none => none
  | some v =>
    some (w.heap.length,
      { w with heap := w.heap ++ [{ ctx := v.ctx, parent := some l, config := v.config }] })

/-- Modelled from the spec: `Logger.SetCtxKeys` is not in the file; it is the
setter of the context-keys field. -/
def SetCtxKeys (w : World) (l : Ptr) (keys : List Key) : Option World :=
  w.modify l fun v => { v with config := { v.config with CtxKeys := keys } }

/-- Modelled from the spec: `Logger.SetWriter` is not in the file; it is the
setter of the writer field. -/
def SetWriter (w : World) (l : Ptr) (writer : Option WriterRef) : Option World :=
  w.modify l fun v => { v with config := { v.config with Writer := writer } }

/-- Modelled from the spec: `Logger.SetPath` is not in the file.  It sets the
output directory; when the directory cannot be set it returns an error and
leaves the field at its prior value. -/
def SetPath (d : Deps) (w : World) (l : Ptr) (path : String) : Option (Option Err × World) :=
  match w.load l with
  | none => none
  | some v =>
    if d.pathOk path then
      some (none, w.store l { v with config := { v.config with Path := path } })
    else
      some (some (Err.invalidPath path), w)

/-- Modelled from the spec: `Logger.SetFile` is not in the file; it is the setter
of the file-name pattern. -/
def SetFile (w : World) (l : Ptr) (pattern : String) : Option World :=
  w.modify l fun v => { v with config := { v.config with File := pattern } }

/-- Modelled from the spec: `Logger.SetLevel` is not in the file; it is the setter
of the numeric level. -/
def SetLevel (w : World) (l : Ptr) (level : Int) : Option World :=
  w.modify l fun v => { v with config := { v.config with Level := level } }

/-- Modelled from the spec: `Logger.SetLevelStr` is not in the file.  It resolves
the name to a level and sets it; on an unresolvable name it returns an error
and leaves the level unchanged. -/
def SetLevelStr (d : Deps) (w : World) (l : Ptr) (levelStr : String) :
    Option (Option Err × World) :=
  match w.load l with
  | none => none
  | some v =>
    match d.levelOf levelStr with
    | some level => some (none, w.store l { v with config := { v.config with Level := level } })
    | none => some (some (Err.invalidLevel levelStr), w)

/-- Modelled from the spec: `Logger.SetStackSkip` is not in the file; it is the
setter of the stack-skip field. -/
def SetStackSkip (w : World) (l : Ptr) (skip : Int) : Option World :=
  w.modify l fun v => { v with config := { v.config with StackSkip := skip } }

/-- Modelled from the spec: `Logger.SetStack` is not in the file; it is the setter
of the stack-enabled field. -/
def SetStack (w : World) (l : Ptr) (enabled : Bool) : Option World :=
  w.modify l fun v => { v with config := { v.config with StackEnabled := enabled } }

/-- Modelled from the spec: `Logger.SetStackFilter` is not in the file; it is the
setter of the stack-filter field. -/
def SetStackFilter (w : World) (l : Ptr) (filter : String) : Option World :=
  w.modify l fun v => { v with config := { v.config with StackFilter := filter } }

/-- Modelled from the spec: `Logger.SetHeaderPrint` is not in the file; it is the
setter of the header-enabled field. -/
def SetHeaderPrint (w : World) (l : Ptr) (enabled : Bool) : Option World :=
  w.modify l fun v => { v with config := { v.config with HeaderPrint := enabled } }

/-- Modelled from the spec: `Logger.SetAsync` is not in the file; it is the setter
of the async-enabled field. -/
def SetAsync (w : World) (l : Ptr) (enabled : Bool) : Option World :=
  w.modify l fun v => { v with config := { v.config with AsyncEnabled := enabled } }

/-- The condition `len(enabled) > 0 && !enabled[0]` on a variadic argument. -/
def firstIsFalse (enabled : List Bool) : Bool :=
  decide (enabled.length > 0) && !(enabled.getD 0 false)

/-- The condition `len(long) > 0 && long[0]` on a variadic argument. -/
def firstIsTrue (long : List Bool) : Bool :=
  decide (long.length > 0) && long.getD 0 false

/-- `Logger.E上下文` (Ctx): sets the context for the current logging. -/
def «E上下文» (w : World) (l : Ptr) (ctx : Option Context) (keys : List Key) :
    Option (Ptr × World) :=
  match ctx with
  | none => some (l, w)
  | some c => do
    let v ← w.load l
    let (logger, w1) ← if v.parent = none then Clone w l else some (l, w)
    let w2 ← w1.modify logger fun x => { x with ctx := some c }
    let w3 ← if keys.length > 0 then SetCtxKeys w2 logger keys else some w2
    pure (logger, w3)

/-- `Logger.E重定向` (To): redirects the output to the given writer. -/
def «E重定向» (w : World) (l : Ptr) (writer : Option WriterRef) : Option (Ptr × World) := do
  let v ← w.load l
  let (logger, w1) ← if v.parent = none then Clone w l else some (l, w)
  let w2 ← SetWriter w1 logger writer
  pure (logger, w2)

/-- `Logger.E路径` (Path): sets the directory path. -/
def «E路径» (d : Deps) (w : World) (l : Ptr) (path : String) : Option (Ptr × World) := do
  let v ← w.load l
  let (logger, w1) ← if v.parent = none then Clone w l else some (l, w)
  if path ≠ "" then
    let (err, w2) ← SetPath d w1 logger path
    match err with
    | some e => pure (logger, w2.logError e)
    | none => pure (logger, w2)
  else
    pure (logger, w1)

/-- `Logger.E分类` (Cat): sets the category, as a directory under the path. -/
def «E分类» (d : Deps) (w : World) (l : Ptr) (category : String) : Option (Ptr × World) := do
  let v ← w.load l
  let (logger, w1) ← if v.parent = none then Clone w l else some (l, w)
  let x ← w1.load logger
  if x.config.Path ≠ "" then
    let (err, w2) ← SetPath d w1 logger (d.Join x.config.Path category)
    match err with
    | some e => pure (logger, w2.logError e)
    | none => pure (logger, w2)
  else
    pure (logger, w1)

/-- `Logger.E文件` (File): sets the file name pattern. -/
def «E文件» (w : World) (l : Ptr) (file : String) : Option (Ptr × World) := do
  let v ← w.load l
  let (logger, w1) ← if v.parent = none then Clone w l else some (l, w)
  let w2 ← SetFile w1 logger file
  pure (logger, w2)

/-- `Logger.E级别` (Level): sets the logging level. -/
def «E级别» (w : World) (l : Ptr) (level : Int) : Option (Ptr × World) := do
  let v ← w.load l
  let (logger, w1) ← if v.parent = none then Clone w l else some (l, w)
  let w2 ← SetLevel w1 logger level
  pure (logger, w2)

/-- `Logger.E级别文本` (LevelStr): sets the logging level by its name. -/
def «E级别文本» (d : Deps) (w : World) (l : Ptr) (levelStr : String) :
    Option (Ptr × World) := do
  let v ← w.load l
  let (logger, w1) ← if v.parent = none then Clone w l else some (l, w)
  let (err, w2) ← SetLevelStr d w1 logger levelStr
  match err with
  | some e => pure (logger, w2.logError e)
  | none => pure (logger, w2)

/-- `Logger.E跳过` (Skip): sets the stack skip. -/
def «E跳过» (w : World) (l : Ptr) (skip : Int) : Option (Ptr × World) := do
  let v ← w.load l
  let (logger, w1) ← if v.parent = none then Clone w l else some (l, w)
  let w2 ← SetStackSkip w1 logger skip
  pure (logger, w2)

/-- `Logger.E堆栈` (Stack): sets the stack options. -/
def «E堆栈» (w : World) (l : Ptr) (enabled : Bool) (skip : List Int) :
    Option (Ptr × World) := do
  let v ← w.load l
  let (logger, w1) ← if v.parent = none then Clone w l else some (l, w)
  let w2 ← SetStack w1 logger enabled
  let w3 ← if skip.length > 0 then SetStackSkip w2 logger (skip.getD 0 0) else some w2
  pure (logger, w3)

/-- `Logger.E堆栈过滤` (StackWithFilter): sets the stack filter. -/
def «E堆栈过滤» (w : World) (l : Ptr) (filter : String) : Option (Ptr × World) := do
  let v ← w.load l
  let (logger, w1) ← if v.parent = none then Clone w l else some (l, w)
  let w2 ← SetStack w1 logger true
  let w3 ← SetStackFilter w2 logger filter
  pure (logger, w3)

/-- `Logger.E控制台` (Stdout): enables or disables stdout printing. -/
def «E控制台» (w : World) (l : Ptr) (enabled : List Bool) : Option (Ptr × World) := do
  let v ← w.load l
  let (logger, w1) ← if v.parent = none then Clone w l else some (l, w)
  let w2 ← if firstIsFalse enabled then
      w1.modify logger fun x => { x with config := { x.config with StdoutPrint := false } }
    else
      w1.modify logger fun x => { x with config := { x.config with StdoutPrint := true } }
  pure (logger, w2)

/-- `Logger.E头` (Header): enables or disables the log header. -/
def «E头» (w : World) (l : Ptr) (enabled : List Bool) : Option (Ptr × World) := do
  let v ← w.load l
  let (logger, w1) ← if v.parent = none then Clone w l else some (l, w)
  let w2 ← if firstIsFalse enabled then SetHeaderPrint w1 logger false
    else SetHeaderPrint w1 logger true
  pure (logger, w2)

/-- `Logger.E行号` (Line): selects the caller file path form. -/
def «E行号» (d : Deps) (w : World) (l : Ptr) (long : List Bool) : Option (Ptr × World) := do
  let v ← w.load l
  let (logger, w1) ← if v.parent = none then Clone w l else some (l, w)
  let w2 ← if firstIsTrue long then
      w1.modify logger fun x =>
        { x with config := { x.config with Flags := x.config.Flags ||| d.F_FILE_LONG } }
    else
      w1.modify logger fun x =>
        { x with config := { x.config with Flags := x.config.Flags ||| d.F_FILE_SHORT } }
  pure (logger, w2)

/-- `Logger.E异步` (Async): enables or disables asynchronous output. -/
def «E异步» (w : World) (l : Ptr) (enabled : List Bool) : Option (Ptr × World) := do
  let v ← w.load l
  let (logger, w1) ← if v.parent = none then Clone w l else some (l, w)
  let w2 ← if firstIsFalse enabled then SetAsync w1 logger false
    else SetAsync w1 logger true
  pure (logger, w2)


/-- One chaining call with its arguments. -/
inductive Call where
  | Ctx (c : Option Context) (keys : List Key)
  | To (writer : Option WriterRef)
  | Path (p : String)
  | Cat (category : String)
  | File (f : String)
  | Level (n : Int)
  | LevelStr (s : String)
  | Skip (n : Int)
  | Stack (enabled : Bool) (skips : List Int)
  | StackWithFilter (filter : String)
  | Stdout (enabled : List Bool)
  | Header (enabled : List Bool)
  | Line (long : List Bool)
  | Async (enabled : List Bool)
  deriving DecidableEq, Repr

/-- Make one chaining call on the logger at `l`. -/
def Call.run (d : Deps) (w : World) (l : Ptr) : Call → Option (Ptr × World)
  | .Ctx c keys => «E上下文» w l c keys
  | .To writer => «E重定向» w l writer
  | .Path p => «E路径» d w l p
  | .Cat category => «E分类» d w l category
  | .File f => «E文件» w l f
  | .Level n => «E级别» w l n
  | .LevelStr s => «E级别文本» d w l s
  | .Skip n => «E跳过» w l n
  | .Stack enabled skips => «E堆栈» w l enabled skips
  | .StackWithFilter filter => «E堆栈过滤» w l filter
  | .Stdout enabled => «E控制台» w l enabled
  | .Header enabled => «E头» w l enabled
  | .Line long => «E行号» d w l long
  | .Async enabled => «E异步» w l enabled

/-- The call is `E上下文` with a nil context. -/
def Call.isNilCtx : Call → Bool
  | .Ctx none _ => true
  | _ => false

/-- The change one chaining call makes to the record of its working logger, as a
function on records; `run_root` and `run_derived` prove that `Call.run` computes
it. -/
def Call.effect (d : Deps) (c : Call) (v : Logger) : Logger :=
  match c with
  | .Ctx none _ => v
  | .Ctx (some x) keys =>
    if keys.length > 0 then
      { ctx := some x, parent := v.parent, config := { v.config with CtxKeys := keys } }
    else { v with ctx := some x }
  | .To writer => { v with config := { v.config with Writer := writer } }
  | .Path p =>
    if p ≠ "" ∧ d.pathOk p = true then { v with config := { v.config with Path := p } } else v
  | .Cat category =>
    if v.config.Path ≠ "" ∧ d.pathOk (d.Join v.config.Path category) = true then
      { v with config := { v.config with Path := d.Join v.config.Path category } }
    else v
  | .File f => { v with config := { v.config with File := f } }
  | .Level n => { v with config := { v.config with Level := n } }
  | .LevelStr s =>
    match d.levelOf s with
    | some n => { v with config := { v.config with Level := n } }
    | none => v
  | .Skip n => { v with config := { v.config with StackSkip := n } }
  | .Stack enabled skips =>
    if skips.length > 0 then
      { v with config := { v.config with StackEnabled := enabled, StackSkip := skips.getD 0 0 } }
    else { v with config := { v.config with StackEnabled := enabled } }
  | .StackWithFilter filter =>
    { v with config := { v.config with StackEnabled := true, StackFilter := filter } }
  | .Stdout enabled => { v with config := { v.config with StdoutPrint := !firstIsFalse enabled } }
  | .Header enabled => { v with config := { v.config with HeaderPrint := !firstIsFalse enabled } }
  | .Line long =>
    if firstIsTrue long then
      { v with config := { v.config with Flags := v.config.Flags ||| d.F_FILE_LONG } }
    else { v with config := { v.config with Flags := v.config.Flags ||| d.F_FILE_SHORT } }
  | .Async enabled => { v with config := { v.config with AsyncEnabled := !firstIsFalse enabled } }

/-- The errors one chaining call hands to `intlog.Error`, given the record of its
working logger; `run_root` and `run_derived` prove that `Call.run` logs them. -/
def Call.errors (d : Deps) (c : Call) (v : Logger) : List Err :=
  match c with
  | .Path p => if p ≠ "" ∧ d.pathOk p = false then [Err.invalidPath p] else []
  | .Cat category =>
    if v.config.Path ≠ "" ∧ d.pathOk (d.Join v.config.Path category) = false then
      [Err.invalidPath (d.Join v.config.Path category)]
    else []
  | .LevelStr s =>
    match d.levelOf s with
    | some _ => []
    | none => [Err.invalidLevel s]
  | _ => []

/-- Make a sequence of chaining calls, each on the handle the previous one
returned (`l.A(..).B(..).C(..)`). -/
def runChain (d : Deps) : List Call → World → Ptr → Option (Ptr × World)
  | [], w, l => some (l, w)
  | c :: cs, w, l =>
    match c.run d w l with
    | none => none
    | some (p, w1) => runChain d cs w1 p

/-- The flag test `flags & f > 0`. -/
def hasFlag (flags f : Nat) : Bool :=
  flags &&& f != 0

/-- A path without its trailing separators. -/
def trimRightSep (s : String) : String :=
  String.mk (s.toList.reverse.dropWhile fun c => c == '/').reverse

/-- Modelled from the spec: `gfile.Join` is not in the file.  The specification
describes the path-join utility as combining a directory and a relative segment
into a directory path, and fixes one value: `/logs` and `app/user` give
`/logs/app/user`.  The model drops the trailing separators of the two parts and
puts one separator between them; it cleans nothing else in the path.  General
statements take the join as the parameter `Deps.Join`. -/
def gfileJoin (dir seg : String) : String :=
  if trimRightSep dir = "" then trimRightSep seg
  else trimRightSep dir ++ "/" ++ trimRightSep seg

/-- One concrete choice of the dependencies, for evaluating the methods on
concrete inputs: two distinct flag bits, the modelled path join, every
directory but `/proc/denied` settable, and a two-entry level-name table. -/
def exampleDeps : Deps where
  F_FILE_LONG := 2
  F_FILE_SHORT := 4
  Join := gfileJoin
  pathOk := fun p => p != "/proc/denied"
  levelOf := fun s => if s = "ALL" then some 0 else if s = "PROD" then some 1 else none

/-- A configuration for concrete inputs: no path, no flags. -/
def exampleConfig : Config where
  CtxKeys := []
  Writer := none
  Path := ""
  Category := ""
  File := "{Y-m-d}.log"
  Level := 0
  Flags := 0
  StdoutPrint := true
  HeaderPrint := true
  StackEnabled := true
  StackSkip := 0
  StackFilter := ""
  AsyncEnabled := false

/-- A root logger for concrete inputs. -/
def exampleRoot : Logger where
  ctx := none
  parent := none
  config := exampleConfig

/-- A heap for concrete inputs: the root logger at address 0 and a logger derived
from it at address 1. -/
def exampleWorld : World where
  heap := [exampleRoot, { exampleRoot with parent := some 0 }]
  intlog := []

/-- A heap for concrete inputs in which the long-form flag of `exampleDeps` is
already set: a root logger at address 0 and a logger derived from it at
address 1, both with `Flags = 2`. -/
def exampleWorldLong : World where
  heap := [{ exampleRoot with config := { exampleConfig with Flags := 2 } },
    { exampleRoot with parent := some 0, config := { exampleConfig with Flags := 2 } }]
  intlog := []

/-- A heap for concrete inputs with a configured directory: a root logger at
address 0 and a logger derived from it at address 1, both with path `/logs`. -/
def exampleWorldLogs : World where
  heap := [{ exampleRoot with config := { exampleConfig with Path := "/logs" } },
    { exampleRoot with parent := some 0, config := { exampleConfig with Path := "/logs" } }]
  intlog := []

/-- The call `E分类(category)` on a logger with record `v` sets the path: the guard
`logger.config.Path != ""` passes, so `SetPath` is called on the joined
directory, and that directory can be set, so `SetPath` returns no error. -/
def catSetsPath (d : Deps) (v : Logger) (category : String) : Bool :=
  v.config.Path != "" && d.pathOk (d.Join v.config.Path category)

theorem load_fresh (h : List Logger) (i : List Err) (a : Logger) :
    World.load { heap := h ++ [a], intlog := i } h.length = some a := by
  simp [World.load]

theorem store_fresh (h : List Logger) (i : List Err) (a b : Logger) :
    World.store { heap := h ++ [a], intlog := i } h.length b
      = { heap := h ++ [b], intlog := i } := by
  simp [World.store]

theorem modify_fresh (h : List Logger) (i : List Err) (a : Logger) (f : Logger → Logger) :
    World.modify { heap := h ++ [a], intlog := i } h.length f
      = some { heap := h ++ [f a], intlog := i } := by
  simp [World.modify, load_fresh, store_fresh]

theorem lt_of_load {w : World} {p : Ptr} {v : Logger} (h : w.load p = some v) :
    p < w.heap.length := by
  simp only [World.load] at h
  exact (List.getElem?_eq_some_iff.mp h).1

theorem load_set {w : World} {p : Ptr} {v : Logger} (h : w.load p = some v) (a : Logger)
    (i : List Err) :
    World.load { heap := w.heap.set p a, intlog := i } p = some a := by
  have := lt_of_load h
  simp [World.load, this]

theorem modify_set {w : World} {p : Ptr} {v : Logger} (h : w.load p = some v) (a : Logger)
    (i : List Err) (f : Logger → Logger) :
    World.modify { heap := w.heap.set p a, intlog := i } p f
      = some { heap := w.heap.set p (f a), intlog := i } := by
  simp [World.modify, load_set h a i, World.store]

theorem modify_of_load {w : World} {p : Ptr} {v : Logger} (h : w.load p = some v)
    (f : Logger → Logger) :
    w.modify p f = some { heap := w.heap.set p (f v), intlog := w.intlog } := by
  simp [World.modify, h, World.store]

theorem Clone_of_load {w : World} {l : Ptr} {v : Logger} (h : w.load l = some v) :
    Clone w l = some (w.heap.length,
      { heap := w.heap ++ [{ ctx := v.ctx, parent := some l, config := v.config }],
        intlog := w.intlog }) := by
  simp [Clone, h]

theorem run_root (d : Deps) (c : Call) {w : World} {l : Ptr} {v : Logger}
    (hv : w.load l = some v) (hp : v.parent = none) (hc : c.isNilCtx = false) :
    c.run d w l = some (w.heap.length,
      { heap := w.heap ++ [c.effect d { v with parent := some l }],
        intlog := w.intlog ++ c.errors d { v with parent := some l } }) := by
  cases c with
  | Ctx x keys =>
    cases x with
    | none => simp [Call.isNilCtx] at hc
    | some x =>
      by_cases hk : keys.length > 0 <;>
      simp [Call.run, Call.effect, Call.errors, «E上下文», hv, hp, Clone_of_load hv,
        modify_fresh, SetCtxKeys, hk]
  | To writer =>
    simp [Call.run, Call.effect, Call.errors, «E重定向», hv, hp, Clone_of_load hv,
      modify_fresh, SetWriter]
  | Path p =>
    by_cases h1 : p = "" <;> by_cases h2 : d.pathOk p = true <;>
    simp [Call.run, Call.effect, Call.errors, «E路径», hv, hp, Clone_of_load hv,
      load_fresh, store_fresh, SetPath, World.logError, h1, h2]
  | Cat category =>
    by_cases h1 : v.config.Path = "" <;>
    by_cases h2 : d.pathOk (d.Join v.config.Path category) = true <;>
    simp [Call.run, Call.effect, Call.errors, «E分类», hv, hp, Clone_of_load hv,
      load_fresh, store_fresh, SetPath, World.logError, h1, h2]
  | File f =>
    simp [Call.run, Call.effect, Call.errors, «E文件», hv, hp, Clone_of_load hv,
      modify_fresh, SetFile]
  | Level n =>
    simp [Call.run, Call.effect, Call.errors, «E级别», hv, hp, Clone_of_load hv,
      modify_fresh, SetLevel]
  | LevelStr s =>
    cases h1 : d.levelOf s <;>
    simp [Call.run, Call.effect, Call.errors, «E级别文本», hv, hp, Clone_of_load hv,
      load_fresh, store_fresh, SetLevelStr, World.logError, h1]
  | Skip n =>
    simp [Call.run, Call.effect, Call.errors, «E跳过», hv, hp, Clone_of_load hv,
      modify_fresh, SetStackSkip]
  | Stack enabled skips =>
    by_cases hk : skips.length > 0 <;>
    simp [Call.run, Call.effect, Call.errors, «E堆栈», hv, hp, Clone_of_load hv,
      modify_fresh, SetStack, SetStackSkip, hk]
  | StackWithFilter filter =>
    simp [Call.run, Call.effect, Call.errors, «E堆栈过滤», hv, hp, Clone_of_load hv,
      modify_fresh, SetStack, SetStackFilter]
  | Stdout enabled =>
    cases h1 : firstIsFalse enabled <;>
    simp [Call.run, Call.effect, Call.errors, «E控制台», hv, hp, Clone_of_load hv,
      modify_fresh, h1]
  | Header enabled =>
    cases h1 : firstIsFalse enabled <;>
    simp [Call.run, Call.effect, Call.errors, «E头», hv, hp, Clone_of_load hv,
      modify_fresh, SetHeaderPrint, h1]
  | Line long =>
    cases h1 : firstIsTrue long <;>
    simp [Call.run, Call.effect, Call.errors, «E行号», hv, hp, Clone_of_load hv,
      modify_fresh, h1]
  | Async enabled =>
    cases h1 : firstIsFalse enabled <;>
    simp [Call.run, Call.effect, Call.errors, «E异步», hv, hp, Clone_of_load hv,
      modify_fresh, SetAsync, h1]

theorem set_self {w : World} {l : Ptr} {v : Logger} (hv : w.load l = some v) :
    w.heap.set l v = w.heap := by
  simp only [World.load] at hv
  exact List.ext_getElem? fun i => by
    by_cases h : l = i
    · subst h; simp [List.getElem?_set, hv]
      exact (List.getElem?_eq_some_iff.mp hv).1
    · simp [List.getElem?_set, h]

theorem run_derived (d : Deps) (c : Call) {w : World} {l : Ptr} {v : Logger}
    (hv : w.load l = some v) (hp : v.parent ≠ none) :
    c.run d w l = some (l,
      { heap := w.heap.set l (c.effect d v), intlog := w.intlog ++ c.errors d v }) := by
  cases c with
  | Ctx x keys =>
    cases x with
    | none => simp [Call.run, Call.effect, Call.errors, «E上下文», set_self hv]
    | some x =>
      by_cases hk : keys.length > 0 <;>
      simp [Call.run, Call.effect, Call.errors, «E上下文», hv, hp, modify_of_load hv,
        modify_set hv, SetCtxKeys, hk]
  | To writer =>
    simp [Call.run, Call.effect, Call.errors, «E重定向», hv, hp, modify_of_load hv,
      modify_set hv, SetWriter]
  | Path p =>
    by_cases h1 : p = "" <;> by_cases h2 : d.pathOk p = true <;>
    simp [Call.run, Call.effect, Call.errors, «E路径», hv, hp, set_self hv,
      World.store, SetPath, World.logError, h1, h2]
  | Cat category =>
    by_cases h1 : v.config.Path = "" <;>
    by_cases h2 : d.pathOk (d.Join v.config.Path category) = true <;>
    simp [Call.run, Call.effect, Call.errors, «E分类», hv, hp, set_self hv,
      World.store, SetPath, World.logError, h1, h2]
  | File f =>
    simp [Call.run, Call.effect, Call.errors, «E文件», hv, hp, modify_of_load hv,
      modify_set hv, SetFile]
  | Level n =>
    simp [Call.run, Call.effect, Call.errors, «E级别», hv, hp, modify_of_load hv,
      modify_set hv, SetLevel]
  | LevelStr s =>
    cases h1 : d.levelOf s <;>
    simp [Call.run, Call.effect, Call.errors, «E级别文本», hv, hp, set_self hv,
      World.store, SetLevelStr, World.logError, h1]
  | Skip n =>
    simp [Call.run, Call.effect, Call.errors, «E跳过», hv, hp, modify_of_load hv,
      modify_set hv, SetStackSkip]
  | Stack enabled skips =>
    by_cases hk : skips.length > 0 <;>
    simp [Call.run, Call.effect, Call.errors, «E堆栈», hv, hp, modify_of_load hv,
      modify_set hv, SetStack, SetStackSkip, hk]
  | StackWithFilter filter =>
    simp [Call.run, Call.effect, Call.errors, «E堆栈过滤», hv, hp, modify_of_load hv,
      modify_set hv, SetStack, SetStackFilter]
  | Stdout enabled =>
    cases h1 : firstIsFalse enabled <;>
    simp [Call.run, Call.effect, Call.errors, «E控制台», hv, hp, modify_of_load hv,
      modify_set hv, h1]
  | Header enabled =>
    cases h1 : firstIsFalse enabled <;>
    simp [Call.run, Call.effect, Call.errors, «E头», hv, hp, modify_of_load hv,
      modify_set hv, SetHeaderPrint, h1]
  | Line long =>
    cases h1 : firstIsTrue long <;>
    simp [Call.run, Call.effect, Call.errors, «E行号», hv, hp, modify_of_load hv,
      modify_set hv, h1]
  | Async enabled =>
    cases h1 : firstIsFalse enabled <;>
    simp [Call.run, Call.effect, Call.errors, «E异步», hv, hp, modify_of_load hv,
      modify_set hv, SetAsync, h1]

theorem load_append_of_load {w : World} {l : Ptr} {v : Logger} (hv : w.load l = some v)
    (a : Logger) (i : List Err) :
    World.load { heap := w.heap ++ [a], intlog := i } l = some v := by
  have hlt := lt_of_load hv
  simp only [World.load] at hv ⊢
  rw [List.getElem?_append_left hlt]
  exact hv

theorem load_set_ne (w : World) {p q : Ptr} (hne : q ≠ p) (a : Logger) (i : List Err) :
    World.load { heap := w.heap.set p a, intlog := i } q = w.load q := by
  simp [World.load, List.getElem?_set, Ne.symm hne]

theorem run_nilCtx (d : Deps) {c : Call} (hc : c.isNilCtx = true) (w : World) (l : Ptr) :
    c.run d w l = some (l, w) := by
  cases c with
  | Ctx x keys =>
    cases x with
    | none => rfl
    | some x => simp [Call.isNilCtx] at hc
  | _ => simp [Call.isNilCtx] at hc

theorem load_none_length (w : World) : w.load w.heap.length = none := by
  simp [World.load]

/-- C1: a chaining call made on a root logger leaves the root's context,
configuration record and parent as they were: whichever of the fourteen methods
is called, with whatever arguments, it returns a handle, and the record at the
root's address after the call is the record that was there before. -/
theorem root_unchanged_by_call (d : Deps) (c : Call) (w : World) (R : Ptr) (v : Logger)
    (hv : w.load R = some v) (hroot : v.parent = none) :
    ∃ p w1, c.run d w R = some (p, w1) ∧ w1.load R = some v := by
  cases hc : c.isNilCtx with
  | true => exact ⟨R, w, run_nilCtx d hc w R, hv⟩
  | false => exact ⟨_, _, run_root d c hv hroot hc, load_append_of_load hv _ _⟩

theorem root_unchanged_by_call_witness :
    exampleWorld.load 0 = some exampleRoot ∧ exampleRoot.parent = none ∧
      ∃ p w1, (Call.Level 3).run exampleDeps exampleWorld 0 = some (p, w1) ∧
        w1.load 0 = some exampleRoot :=
  ⟨rfl, rfl, root_unchanged_by_call exampleDeps (Call.Level 3) exampleWorld 0 exampleRoot rfl rfl⟩

theorem level_twice (w : World) (R : Ptr) (v : Logger) (x y : Int)
    (hv : w.load R = some v) (hroot : v.parent = none) :
    ∃ A w1 B w2 a b, «E级别» w R x = some (A, w1) ∧ «E级别» w1 R y = some (B, w2) ∧
      A ≠ R ∧ B ≠ R ∧ A ≠ B ∧ w1.load R = some v ∧ w2.load R = some v ∧
      w1.load A = some a ∧ w2.load A = some a ∧ w2.load B = some b ∧
      a.parent = some R ∧ b.parent = some R ∧
      a.config.Level = x ∧ b.config.Level = y := by
  have h1 := run_root exampleDeps (Call.Level x) hv hroot rfl
  have hv1 := load_append_of_load hv
    ((Call.Level x).effect exampleDeps { v with parent := some R })
    (w.intlog ++ (Call.Level x).errors exampleDeps { v with parent := some R })
  have h2 := run_root exampleDeps (Call.Level y) hv1 hroot rfl
  have hA1 := load_fresh w.heap
    (w.intlog ++ (Call.Level x).errors exampleDeps { v with parent := some R })
    ((Call.Level x).effect exampleDeps { v with parent := some R })
  have hlt := lt_of_load hv
  refine ⟨_, _, _, _, _, _, h1, h2, ?_, ?_, ?_, hv1, load_append_of_load hv1 _ _, hA1,
    load_append_of_load hA1 _ _, load_fresh _ _ _, rfl, rfl, rfl, rfl⟩
  · exact Nat.ne_of_gt hlt
  · show (w.heap ++ [_]).length ≠ R
    rw [List.length_append, List.length_singleton]
    exact Nat.ne_of_gt (Nat.lt_succ_of_lt hlt)
  · show w.heap.length ≠ (w.heap ++ [_]).length
    rw [List.length_append, List.length_singleton]
    exact Nat.ne_of_lt (Nat.lt_succ_self _)

/-- C2: clone isolation.  For a root logger R and levels x ≠ y, the two calls
`A = R.E级别(x)` and `B = R.E级别(y)` return two distinct derived loggers; after
both calls R's record is what it was before them, A's level is x and B's level
is y, so the two levels differ; and the same holds when the call with y is made
first. -/
theorem level_clones_isolated (w : World) (R : Ptr) (v : Logger) (x y : Int)
    (hv : w.load R = some v) (hroot : v.parent = none) (hxy : x ≠ y) :
    (∃ A w1 B w2 a b, «E级别» w R x = some (A, w1) ∧ «E级别» w1 R y = some (B, w2) ∧
      A ≠ B ∧ w2.load R = some v ∧ w2.load A = some a ∧ w2.load B = some b ∧
      a.config.Level = x ∧ b.config.Level = y ∧ a.config.Level ≠ b.config.Level) ∧
    (∃ B w1 A w2 a b, «E级别» w R y = some (B, w1) ∧ «E级别» w1 R x = some (A, w2) ∧
      A ≠ B ∧ w2.load R = some v ∧ w2.load A = some a ∧ w2.load B = some b ∧
      a.config.Level = x ∧ b.config.Level = y ∧ a.config.Level ≠ b.config.Level) := by
  constructor
  · obtain ⟨A, w1, B, w2, a, b, h1, h2, -, -, hAB, -, hR, -, hA, hB, -, -, ha, hb⟩ :=
      level_twice w R v x y hv hroot
    exact ⟨A, w1, B, w2, a, b, h1, h2, hAB, hR, hA, hB, ha, hb, by rw [ha, hb]; exact hxy⟩
  · obtain ⟨B, w1, A, w2, b, a, h1, h2, -, -, hBA, -, hR, -, hB, hA, -, -, hb, ha⟩ :=
      level_twice w R v y x hv hroot
    exact ⟨B, w1, A, w2, a, b, h1, h2, Ne.symm hBA, hR, hA, hB, ha, hb,
      by rw [ha, hb]; exact hxy⟩

theorem level_clones_isolated_witness :
    exampleWorld.load 0 = some exampleRoot ∧ exampleRoot.parent = none ∧ (3 : Int) ≠ 5 ∧
    ((∃ A w1 B w2 a b, «E级别» exampleWorld 0 3 = some (A, w1) ∧
      «E级别» w1 0 5 = some (B, w2) ∧
      A ≠ B ∧ w2.load 0 = some exampleRoot ∧ w2.load A = some a ∧ w2.load B = some b ∧
      a.config.Level = 3 ∧ b.config.Level = 5 ∧ a.config.Level ≠ b.config.Level) ∧
    (∃ B w1 A w2 a b, «E级别» exampleWorld 0 5 = some (B, w1) ∧
      «E级别» w1 0 3 = some (A, w2) ∧
      A ≠ B ∧ w2.load 0 = some exampleRoot ∧ w2.load A = some a ∧ w2.load B = some b ∧
      a.config.Level = 3 ∧ b.config.Level = 5 ∧ a.config.Level ≠ b.config.Level)) :=
  ⟨rfl, rfl, by decide,
    level_clones_isolated exampleWorld 0 exampleRoot 3 5 rfl rfl (by decide)⟩

/-- C3: single clone, then mutation in place.  For a root logger R and a level x,
`I = R.E级别(x)` is a new logger whose parent is R, and `I.E控制台(false)` returns
I itself: the heap holds exactly one logger more than before the chain, and that
logger has parent R, level x and stdout printing disabled. -/
theorem level_then_stdout_clones_once (w : World) (R : Ptr) (v : Logger) (x : Int)
    (hv : w.load R = some v) (hroot : v.parent = none) :
    ∃ I w1 i w2 a, «E级别» w R x = some (I, w1) ∧ w1.load I = some i ∧
      i.parent = some R ∧ I ≠ R ∧ w.load I = none ∧
      «E控制台» w1 I [false] = some (I, w2) ∧
      w2.heap.length = w.heap.length + 1 ∧ w2.load R = some v ∧
      w2.load I = some a ∧ a.parent = some R ∧ a.config.Level = x ∧
      a.config.StdoutPrint = false := by
  have h1 := run_root exampleDeps (Call.Level x) hv hroot rfl
  have hI := load_fresh w.heap
    (w.intlog ++ (Call.Level x).errors exampleDeps { v with parent := some R })
    ((Call.Level x).effect exampleDeps { v with parent := some R })
  have h2 := run_derived exampleDeps (Call.Stdout [false]) hI (by simp [Call.effect])
  have hv1 := load_append_of_load hv
    ((Call.Level x).effect exampleDeps { v with parent := some R })
    (w.intlog ++ (Call.Level x).errors exampleDeps { v with parent := some R })
  have hlt := lt_of_load hv
  have hne : R ≠ w.heap.length := Nat.ne_of_lt hlt
  refine ⟨_, _, _, _, _, h1, hI, rfl, Ne.symm hne, load_none_length w, h2, ?_, ?_,
    load_set hI _ _, rfl, rfl, rfl⟩
  · simp
  · rw [load_set_ne _ hne]; exact hv1

theorem level_then_stdout_clones_once_witness :
    exampleWorld.load 0 = some exampleRoot ∧ exampleRoot.parent = none ∧
    ∃ I w1 i w2 a, «E级别» exampleWorld 0 7 = some (I, w1) ∧ w1.load I = some i ∧
      i.parent = some 0 ∧ I ≠ 0 ∧ exampleWorld.load I = none ∧
      «E控制台» w1 I [false] = some (I, w2) ∧
      w2.heap.length = exampleWorld.heap.length + 1 ∧ w2.load 0 = some exampleRoot ∧
      w2.load I = some a ∧ a.parent = some 0 ∧ a.config.Level = 7 ∧
      a.config.StdoutPrint = false :=
  ⟨rfl, rfl, level_then_stdout_clones_once exampleWorld 0 exampleRoot 7 rfl rfl⟩

theorem effect_parent (d : Deps) (c : Call) (v : Logger) :
    (c.effect d v).parent = v.parent := by
  cases c with
  | Ctx x keys =>
    cases x with
    | none => rfl
    | some x => simp only [Call.effect]; split <;> rfl
  | LevelStr s => simp only [Call.effect]; split <;> rfl
  | Path p => simp only [Call.effect]; split <;> rfl
  | Cat category => simp only [Call.effect]; split <;> rfl
  | Stack enabled skips => simp only [Call.effect]; split <;> rfl
  | Line long => simp only [Call.effect]; split <;> rfl
  | _ => rfl

/-- C4: a chaining call on a derived logger D returns D itself, allocates no
logger and leaves D's parent reference as it was; a chaining call on a root
logger R, other than `E上下文` with a nil context, returns a logger that did not
exist before the call and whose parent is R. -/
theorem derived_in_place_root_clones (d : Deps) (w : World) :
    (∀ (D : Ptr) (v : Logger) (c : Call), w.load D = some v → v.parent ≠ none →
      ∃ w1 v1, c.run d w D = some (D, w1) ∧ w1.heap.length = w.heap.length ∧
        w1.load D = some v1 ∧ v1.parent = v.parent) ∧
    (∀ (R : Ptr) (v : Logger) (c : Call), w.load R = some v → v.parent = none →
      c.isNilCtx = false →
      ∃ p w1 v1, c.run d w R = some (p, w1) ∧ p ≠ R ∧ w.load p = none ∧
        w1.heap.length = w.heap.length + 1 ∧ w1.load p = some v1 ∧
        v1.parent = some R) := by
  constructor
  · intro D v c hv hp
    refine ⟨_, _, run_derived d c hv hp, ?_, load_set hv _ _, effect_parent d c v⟩
    simp
  · intro R v c hv hp hc
    refine ⟨_, _, _, run_root d c hv hp hc, Nat.ne_of_gt (lt_of_load hv),
      load_none_length w, ?_, load_fresh _ _ _, effect_parent d c _⟩
    simp

theorem derived_in_place_root_clones_witness :
    (∃ w1 v1, (Call.Async []).run exampleDeps exampleWorld 1 = some (1, w1) ∧
        w1.heap.length = exampleWorld.heap.length ∧
        w1.load 1 = some v1 ∧ v1.parent = some 0) ∧
    (∃ p w1 v1, (Call.Async []).run exampleDeps exampleWorld 0 = some (p, w1) ∧ p ≠ 0 ∧
        exampleWorld.load p = none ∧ w1.heap.length = exampleWorld.heap.length + 1 ∧
        w1.load p = some v1 ∧ v1.parent = some 0) :=
  ⟨(derived_in_place_root_clones exampleDeps exampleWorld).1 1
      { exampleRoot with parent := some 0 } (Call.Async []) rfl (by decide),
    (derived_in_place_root_clones exampleDeps exampleWorld).2 0 exampleRoot
      (Call.Async []) rfl rfl rfl⟩

theorem chain_step (d : Deps) (c : Call) {w : World} {R p : Ptr} {v : Logger}
    (hv : w.load R = some v) (hroot : v.parent = none)
    (hp : p = R ∨ (p ≠ R ∧ ∃ u, w.load p = some u ∧ u.parent ≠ none)) :
    ∃ q w1, c.run d w p = some (q, w1) ∧ w1.load R = some v ∧
      (q = R ∨ (q ≠ R ∧ ∃ u, w1.load q = some u ∧ u.parent ≠ none)) ∧
      (p ≠ R → q = p) := by
  rcases hp with hp | ⟨hne, u, hu, hup⟩
  · subst hp
    cases hc : c.isNilCtx with
    | true => exact ⟨p, w, run_nilCtx d hc w p, hv, Or.inl rfl, fun _ => rfl⟩
    | false =>
      have hlt := lt_of_load hv
      refine ⟨_, _, run_root d c hv hroot hc, load_append_of_load hv _ _,
        Or.inr ⟨Nat.ne_of_gt hlt, _, load_fresh _ _ _, ?_⟩, fun h => absurd rfl h⟩
      rw [effect_parent]; simp
  · refine ⟨_, _, run_derived d c hu hup, ?_,
      Or.inr ⟨hne, _, load_set hu _ _, ?_⟩, fun _ => rfl⟩
    · rw [load_set_ne _ (Ne.symm hne)]; exact hv
    · rw [effect_parent]; exact hup

theorem chain_inv (d : Deps) (cs : List Call) :
    ∀ {w : World} {R p : Ptr} {v : Logger}, w.load R = some v → v.parent = none →
      (p = R ∨ (p ≠ R ∧ ∃ u, w.load p = some u ∧ u.parent ≠ none)) →
      ∃ q w1, runChain d cs w p = some (q, w1) ∧ w1.load R = some v ∧ (p ≠ R → q = p) := by
  induction cs with
  | nil => intro w R p v hv _ _; exact ⟨p, w, rfl, hv, fun _ => rfl⟩
  | cons c cs ih =>
    intro w R p v hv hroot hp
    obtain ⟨q, w1, hrun, hv1, hq, hqp⟩ := chain_step d c hv hroot hp
    obtain ⟨q2, w2, hrun2, hv2, hq2⟩ := ih hv1 hroot hq
    refine ⟨q2, w2, ?_, hv2, fun h => ?_⟩
    · simp [runChain, hrun, hrun2]
    · have := hqp h
      subst this
      exact hq2 h

/-- C5: the clone shares no state with its root.  For a root logger R, the logger
A returned by one chaining call on R, and any further sequence of chaining calls
chained on A, R's record (context, configuration with its context-key list,
parent) after the whole sequence is the record R had before A was derived; and
when the first call is not `E上下文` with a nil context, A is a logger other
than R and every call of the sequence returns A. -/
theorem root_unchanged_by_chain (d : Deps) (w : World) (R : Ptr) (v : Logger) (c : Call)
    (cs : List Call) (hv : w.load R = some v) (hroot : v.parent = none) :
    ∃ A w1 p w2, c.run d w R = some (A, w1) ∧ runChain d cs w1 A = some (p, w2) ∧
      w1.load R = some v ∧ w2.load R = some v ∧
      (c.isNilCtx = false → A ≠ R ∧ p = A) := by
  obtain ⟨A, w1, hrun, hv1, hA, -⟩ := chain_step d c hv hroot (Or.inl rfl)
  obtain ⟨p, w2, hrun2, hv2, hp⟩ := chain_inv d cs hv1 hroot hA
  refine ⟨A, w1, p, w2, hrun, hrun2, hv1, hv2, fun hc => ?_⟩
  have hA2 : A = w.heap.length := by
    have := run_root d c hv hroot hc
    rw [hrun] at this
    simpa using congrArg Prod.fst (Option.some.inj this)
  have hne : A ≠ R := by rw [hA2]; exact Nat.ne_of_gt (lt_of_load hv)
  exact ⟨hne, hp hne⟩

theorem root_unchanged_by_chain_witness :
    exampleWorld.load 0 = some exampleRoot ∧ exampleRoot.parent = none ∧
    ∃ A w1 p w2, (Call.Ctx (some 9) ["uid"]).run exampleDeps exampleWorld 0 = some (A, w1) ∧
      runChain exampleDeps [Call.Ctx (some 4) ["rid"], Call.Path "/logs", Call.Level 2]
        w1 A = some (p, w2) ∧
      w1.load 0 = some exampleRoot ∧ w2.load 0 = some exampleRoot ∧
      ((Call.Ctx (some 9) ["uid"]).isNilCtx = false → A ≠ 0 ∧ p = A) :=
  ⟨rfl, rfl, root_unchanged_by_chain exampleDeps exampleWorld 0 exampleRoot
    (Call.Ctx (some 9) ["uid"]) [Call.Ctx (some 4) ["rid"], Call.Path "/logs", Call.Level 2]
    rfl rfl⟩

/-- C6: `E上下文` with a nil context is a no-op on every logger, root or derived,
whatever the key list: it returns the receiver itself and leaves the whole
state (no clone, the receiver's context, context keys and every other field)
as it was. -/
theorem nil_ctx_is_noop (w : World) (l : Ptr) (keys : List Key) :
    «E上下文» w l none keys = some (l, w) := by
  rfl

theorem run_load (d : Deps) (c : Call) {w : World} {l : Ptr} {v : Logger}
    (hv : w.load l = some v) (hc : c.isNilCtx = false) :
    ∃ p w1, c.run d w l = some (p, w1) ∧
      w1.load p = some
        (c.effect d { v with parent := if v.parent = none then some l else v.parent }) ∧
      w1.intlog = w.intlog ++
        c.errors d { v with parent := if v.parent = none then some l else v.parent } := by
  by_cases hp : v.parent = none
  · refine ⟨_, _, run_root d c hv hp hc, ?_, ?_⟩
    · rw [load_fresh]; simp [hp]
    · simp [hp]
  · refine ⟨_, _, run_derived d c hv hp, ?_, ?_⟩
    · rw [load_set hv]; simp [hp]
    · simp [hp]

/-- C7: category requires a path.  For every logger L, root or derived, whose
configured path is empty and every category string, `L.E分类(category)` returns
a logger whose path is empty and whose configuration equals L's; nothing is
handed to the internal error log. -/
theorem category_ignored_without_path (d : Deps) (w : World) (l : Ptr) (v : Logger)
    (category : String) (hv : w.load l = some v) (hpath : v.config.Path = "") :
    ∃ p w1 x, «E分类» d w l category = some (p, w1) ∧ w1.load p = some x ∧
      x.config.Path = "" ∧ x.config = v.config ∧ w1.intlog = w.intlog := by
  obtain ⟨p, w1, hrun, hload, hlog⟩ := run_load d (Call.Cat category) hv rfl
  refine ⟨p, w1, _, hrun, hload, ?_, ?_, ?_⟩
  · simp [Call.effect, hpath]
  · simp [Call.effect, hpath]
  · rw [hlog]; simp [Call.errors, hpath]

theorem category_ignored_without_path_witness :
    exampleWorld.load 0 = some exampleRoot ∧ exampleRoot.config.Path = "" ∧
    ∃ p w1 x, «E分类» exampleDeps exampleWorld 0 "a/b" = some (p, w1) ∧
      w1.load p = some x ∧ x.config.Path = "" ∧ x.config = exampleRoot.config ∧
      w1.intlog = exampleWorld.intlog :=
  ⟨rfl, rfl, category_ignored_without_path exampleDeps exampleWorld 0 exampleRoot "a/b"
    rfl rfl⟩

theorem path_then_cat (d : Deps) (w : World) (R : Ptr) (v : Logger) (p c : String)
    (hv : w.load R = some v) (hp : p ≠ "") (ok1 : d.pathOk p = true)
    (ok2 : d.pathOk (d.Join p c) = true) :
    ∃ A w1 w2 b, «E路径» d w R p = some (A, w1) ∧ «E分类» d w1 A c = some (A, w2) ∧
      w2.load A = some b ∧ b.config.Path = d.Join p c := by
  obtain ⟨A, w1, hrun, hload, -⟩ := run_load d (Call.Path p) hv rfl
  have hder : ((Call.Path p).effect d
      { v with parent := if v.parent = none then some R else v.parent }).parent ≠ none := by
    rw [effect_parent]
    by_cases h : v.parent = none <;> simp [h]
  have hrun2 := run_derived d (Call.Cat c) hload hder
  refine ⟨A, w1, _, _, hrun, hrun2, load_set hload _ _, ?_⟩
  simp [Call.effect, hp, ok1, ok2]

/-- C8: category joins the path.  For every logger R, every non-empty directory p
and category c for which setting the directories succeeds, `R.E路径(p).E分类(c)`
yields a logger whose path is the path-join of p and c; with the path join of
`gfile`, p = "/logs" and c = "app/user" the path is "/logs/app/user". -/
theorem path_then_category_joins (d : Deps) (w : World) (R : Ptr) (v : Logger)
    (hv : w.load R = some v) :
    (∀ p c : String, p ≠ "" → d.pathOk p = true → d.pathOk (d.Join p c) = true →
      ∃ A w1 w2 b, «E路径» d w R p = some (A, w1) ∧ «E分类» d w1 A c = some (A, w2) ∧
        w2.load A = some b ∧ b.config.Path = d.Join p c) ∧
    (d.Join = gfileJoin → d.pathOk "/logs" = true → d.pathOk "/logs/app/user" = true →
      ∃ A w1 w2 b, «E路径» d w R "/logs" = some (A, w1) ∧
        «E分类» d w1 A "app/user" = some (A, w2) ∧
        w2.load A = some b ∧ b.config.Path = "/logs/app/user") := by
  constructor
  · intro p c hp ok1 ok2
    exact path_then_cat d w R v p c hv hp ok1 ok2
  · intro hj ok1 ok2
    have hjoin : d.Join "/logs" "app/user" = "/logs/app/user" := by rw [hj]; decide
    have := path_then_cat d w R v "/logs" "app/user" hv (by decide) ok1 (by rw [hjoin]; exact ok2)
    rw [hjoin] at this
    exact this

theorem path_then_category_joins_witness :
    exampleWorld.load 0 = some exampleRoot ∧
    ∃ A w1 w2 b, «E路径» exampleDeps exampleWorld 0 "/logs" = some (A, w1) ∧
        «E分类» exampleDeps w1 A "app/user" = some (A, w2) ∧
        w2.load A = some b ∧ b.config.Path = "/logs/app/user" :=
  ⟨rfl, (path_then_category_joins exampleDeps exampleWorld 0 exampleRoot rfl).2 rfl
    (by decide) (by decide)⟩

/-- C9: default-enable variadic.  For every logger L, each of `E控制台`, `E头` and
`E异步` called with no argument yields a logger with the feature enabled, and
called with one argument b yields a logger whose feature flag is b, whatever
the flag was in L; so `E异步()` gives async enabled and `E异步(false)` gives
async disabled. -/
theorem variadic_default_enables (w : World) (l : Ptr) (v : Logger)
    (hv : w.load l = some v) :
    (∃ p w1 x, «E控制台» w l [] = some (p, w1) ∧ w1.load p = some x ∧
      x.config.StdoutPrint = true) ∧
    (∀ b : Bool, ∃ p w1 x, «E控制台» w l [b] = some (p, w1) ∧ w1.load p = some x ∧
      x.config.StdoutPrint = b) ∧
    (∃ p w1 x, «E头» w l [] = some (p, w1) ∧ w1.load p = some x ∧
      x.config.HeaderPrint = true) ∧
    (∀ b : Bool, ∃ p w1 x, «E头» w l [b] = some (p, w1) ∧ w1.load p = some x ∧
      x.config.HeaderPrint = b) ∧
    (∃ p w1 x, «E异步» w l [] = some (p, w1) ∧ w1.load p = some x ∧
      x.config.AsyncEnabled = true) ∧
    (∀ b : Bool, ∃ p w1 x, «E异步» w l [b] = some (p, w1) ∧ w1.load p = some x ∧
      x.config.AsyncEnabled = b) := by
  refine ⟨?_, fun b => ?_, ?_, fun b => ?_, ?_, fun b => ?_⟩
  · obtain ⟨p, w1, hrun, hload, -⟩ := run_load exampleDeps (Call.Stdout []) hv rfl
    exact ⟨p, w1, _, hrun, hload, rfl⟩
  · obtain ⟨p, w1, hrun, hload, -⟩ := run_load exampleDeps (Call.Stdout [b]) hv rfl
    exact ⟨p, w1, _, hrun, hload, by cases b <;> rfl⟩
  · obtain ⟨p, w1, hrun, hload, -⟩ := run_load exampleDeps (Call.Header []) hv rfl
    exact ⟨p, w1, _, hrun, hload, rfl⟩
  · obtain ⟨p, w1, hrun, hload, -⟩ := run_load exampleDeps (Call.Header [b]) hv rfl
    exact ⟨p, w1, _, hrun, hload, by cases b <;> rfl⟩
  · obtain ⟨p, w1, hrun, hload, -⟩ := run_load exampleDeps (Call.Async []) hv rfl
    exact ⟨p, w1, _, hrun, hload, rfl⟩
  · obtain ⟨p, w1, hrun, hload, -⟩ := run_load exampleDeps (Call.Async [b]) hv rfl
    exact ⟨p, w1, _, hrun, hload, by cases b <;> rfl⟩

theorem variadic_default_enables_witness :
    exampleWorld.load 0 = some exampleRoot ∧
    (∃ p w1 x, «E异步» exampleWorld 0 [] = some (p, w1) ∧ w1.load p = some x ∧
      x.config.AsyncEnabled = true) ∧
    (∃ p w1 x, «E异步» exampleWorld 0 [false] = some (p, w1) ∧ w1.load p = some x ∧
      x.config.AsyncEnabled = false) :=
  ⟨rfl, (variadic_default_enables exampleWorld 0 exampleRoot rfl).2.2.2.2.1,
    (variadic_default_enables exampleWorld 0 exampleRoot rfl).2.2.2.2.2 false⟩

theorem or_and_self_mask (f m : Nat) : (f ||| m) &&& m = m := by
  apply Nat.eq_of_testBit_eq
  intro i
  simp only [Nat.testBit_and, Nat.testBit_or]
  cases f.testBit i <;> cases m.testBit i <;> rfl

theorem or_and_disjoint_mask (f m n : Nat) (h : n &&& m = 0) :
    (f ||| m) &&& n = f &&& n := by
  apply Nat.eq_of_testBit_eq
  intro i
  have hi : (n &&& m).testBit i = false := by rw [h]; simp
  simp only [Nat.testBit_and, Nat.testBit_or] at hi ⊢
  revert hi
  cases f.testBit i <;> cases m.testBit i <;> cases n.testBit i <;> simp

theorem hasFlag_or_self (f m : Nat) (hm : m ≠ 0) : hasFlag (f ||| m) m = true := by
  simp [hasFlag, or_and_self_mask, hm]

theorem hasFlag_or_disjoint (f m n : Nat) (h : n &&& m = 0) :
    hasFlag (f ||| m) n = hasFlag f n := by
  simp [hasFlag, or_and_disjoint_mask f m n h]

/-- C10, as the claim states it, fails: on a logger that already carries the
long-form flag, `E行号()` returns a logger (here the derived receiver itself) on
which the short-form flag and the long-form flag are both set. -/
theorem line_short_keeps_long_flag :
    ∃ w1 x, «E行号» exampleDeps exampleWorldLong 1 [] = some (1, w1) ∧
      w1.load 1 = some x ∧
      hasFlag x.config.Flags exampleDeps.F_FILE_SHORT = true ∧
      hasFlag x.config.Flags exampleDeps.F_FILE_LONG = true :=
  ⟨_, _, rfl, rfl, by decide, by decide⟩

/-- C10, amended: with the two flag constants non-zero and disjoint, for every
logger L `L.E行号()` yields a logger with the short-form flag set and the
long-form flag as it was in L, and `L.E行号(true)` yields a logger with the
long-form flag set and the short-form flag as it was in L; so a returned logger
has exactly one of the two flags set when L had neither. -/
theorem line_sets_one_flag_keeps_other (d : Deps) (w : World) (l : Ptr) (v : Logger)
    (hv : w.load l = some v) (hlong : d.F_FILE_LONG ≠ 0) (hshort : d.F_FILE_SHORT ≠ 0)
    (hdisj : d.F_FILE_LONG &&& d.F_FILE_SHORT = 0) :
    (∃ p w1 x, «E行号» d w l [] = some (p, w1) ∧ w1.load p = some x ∧
      hasFlag x.config.Flags d.F_FILE_SHORT = true ∧
      hasFlag x.config.Flags d.F_FILE_LONG = hasFlag v.config.Flags d.F_FILE_LONG) ∧
    (∃ p w1 x, «E行号» d w l [true] = some (p, w1) ∧ w1.load p = some x ∧
      hasFlag x.config.Flags d.F_FILE_LONG = true ∧
      hasFlag x.config.Flags d.F_FILE_SHORT = hasFlag v.config.Flags d.F_FILE_SHORT) := by
  have hdisj2 : d.F_FILE_SHORT &&& d.F_FILE_LONG = 0 := by rw [Nat.land_comm]; exact hdisj
  constructor
  · obtain ⟨p, w1, hrun, hload, -⟩ := run_load d (Call.Line []) hv rfl
    exact ⟨p, w1, _, hrun, hload, hasFlag_or_self _ _ hshort,
      hasFlag_or_disjoint _ _ _ hdisj⟩
  · obtain ⟨p, w1, hrun, hload, -⟩ := run_load d (Call.Line [true]) hv rfl
    exact ⟨p, w1, _, hrun, hload, hasFlag_or_self _ _ hlong,
      hasFlag_or_disjoint _ _ _ hdisj2⟩

theorem line_sets_one_flag_keeps_other_witness :
    exampleWorld.load 0 = some exampleRoot ∧ exampleDeps.F_FILE_LONG ≠ 0 ∧
    exampleDeps.F_FILE_SHORT ≠ 0 ∧ exampleDeps.F_FILE_LONG &&& exampleDeps.F_FILE_SHORT = 0 ∧
    (∃ p w1 x, «E行号» exampleDeps exampleWorld 0 [] = some (p, w1) ∧ w1.load p = some x ∧
      hasFlag x.config.Flags exampleDeps.F_FILE_SHORT = true ∧
      hasFlag x.config.Flags exampleDeps.F_FILE_LONG
        = hasFlag exampleRoot.config.Flags exampleDeps.F_FILE_LONG) ∧
    (∃ p w1 x, «E行号» exampleDeps exampleWorld 0 [true] = some (p, w1) ∧
      w1.load p = some x ∧
      hasFlag x.config.Flags exampleDeps.F_FILE_LONG = true ∧
      hasFlag x.config.Flags exampleDeps.F_FILE_SHORT
        = hasFlag exampleRoot.config.Flags exampleDeps.F_FILE_SHORT) :=
  ⟨rfl, by decide, by decide, by decide,
    line_sets_one_flag_keeps_other exampleDeps exampleWorld 0 exampleRoot rfl
      (by decide) (by decide) (by decide)⟩

/-- C11: a swallowed failure keeps the prior value.  For every logger L and every
level name that resolves to no level, `L.E级别文本(name)` returns a logger whose
level, like the rest of its configuration, is L's, and the error goes to the
internal log only; for every name that resolves to a level n it returns a
logger whose level is n. -/
theorem level_name_failure_keeps_level (d : Deps) (w : World) (l : Ptr) (v : Logger)
    (s : String) (hv : w.load l = some v) :
    (d.levelOf s = none →
      ∃ p w1 y, «E级别文本» d w l s = some (p, w1) ∧ w1.load p = some y ∧
        y.config.Level = v.config.Level ∧ y.config = v.config ∧
        w1.intlog = w.intlog ++ [Err.invalidLevel s]) ∧
    (∀ n : Int, d.levelOf s = some n →
      ∃ p w1 y, «E级别文本» d w l s = some (p, w1) ∧ w1.load p = some y ∧
        y.config.Level = n ∧ w1.intlog = w.intlog) := by
  obtain ⟨p, w1, hrun, hload, hlog⟩ := run_load d (Call.LevelStr s) hv rfl
  constructor
  · intro hs
    refine ⟨p, w1, _, hrun, hload, ?_, ?_, ?_⟩
    · simp [Call.effect, hs]
    · simp [Call.effect, hs]
    · rw [hlog]; simp [Call.errors, hs]
  · intro n hs
    refine ⟨p, w1, _, hrun, hload, ?_, ?_⟩
    · simp [Call.effect, hs]
    · rw [hlog]; simp [Call.errors, hs]

theorem level_name_failure_keeps_level_witness :
    exampleWorld.load 0 = some exampleRoot ∧ exampleDeps.levelOf "nope" = none ∧
    exampleDeps.levelOf "PROD" = some 1 ∧
    (∃ p w1 y, «E级别文本» exampleDeps exampleWorld 0 "nope" = some (p, w1) ∧
        w1.load p = some y ∧
        y.config.Level = exampleRoot.config.Level ∧ y.config = exampleRoot.config ∧
        w1.intlog = exampleWorld.intlog ++ [Err.invalidLevel "nope"]) ∧
    (∃ p w1 y, «E级别文本» exampleDeps exampleWorld 0 "PROD" = some (p, w1) ∧
        w1.load p = some y ∧ y.config.Level = 1 ∧ w1.intlog = exampleWorld.intlog) :=
  ⟨rfl, by decide, by decide,
    (level_name_failure_keeps_level exampleDeps exampleWorld 0 exampleRoot "nope" rfl).1
      (by decide),
    (level_name_failure_keeps_level exampleDeps exampleWorld 0 exampleRoot "PROD" rfl).2 1
      (by decide)⟩

/-- C12: a failing directory is swallowed.  For every logger L, when the directory
given to `E路径` cannot be set, or the directory `E分类` joins from L's path and
the category cannot be set, the call still returns a logger, and that logger's
path, every other configuration field and context are L's. -/
theorem path_failure_keeps_config (d : Deps) (w : World) (l : Ptr) (v : Logger)
    (hv : w.load l = some v) :
    (∀ path : String, d.pathOk path = false →
      ∃ p w1 y, «E路径» d w l path = some (p, w1) ∧ w1.load p = some y ∧
        y.config.Path = v.config.Path ∧ y.config = v.config ∧ y.ctx = v.ctx) ∧
    (∀ category : String, d.pathOk (d.Join v.config.Path category) = false →
      ∃ p w1 y, «E分类» d w l category = some (p, w1) ∧ w1.load p = some y ∧
        y.config.Path = v.config.Path ∧ y.config = v.config ∧ y.ctx = v.ctx) := by
  constructor
  · intro path hfail
    obtain ⟨p, w1, hrun, hload, -⟩ := run_load d (Call.Path path) hv rfl
    refine ⟨p, w1, _, hrun, hload, ?_, ?_, ?_⟩ <;> simp [Call.effect, hfail]
  · intro category hfail
    obtain ⟨p, w1, hrun, hload, -⟩ := run_load d (Call.Cat category) hv rfl
    refine ⟨p, w1, _, hrun, hload, ?_, ?_, ?_⟩ <;> simp [Call.effect, hfail]

theorem path_failure_keeps_config_witness :
    exampleWorld.load 0 = some exampleRoot ∧ exampleDeps.pathOk "/proc/denied" = false ∧
    ∃ p w1 y, «E路径» exampleDeps exampleWorld 0 "/proc/denied" = some (p, w1) ∧
      w1.load p = some y ∧
      y.config.Path = exampleRoot.config.Path ∧ y.config = exampleRoot.config ∧
      y.ctx = exampleRoot.ctx :=
  ⟨rfl, by decide,
    (path_failure_keeps_config exampleDeps exampleWorld 0 exampleRoot rfl).1 "/proc/denied"
      (by decide)⟩

/-- C13: `E路径` with the empty string.  On a root logger R it returns a logger
that did not exist before the call, other than R, with parent R and with R's
configuration (path included) and context; on a derived logger D it returns D
and leaves the whole state as it was. -/
theorem empty_path_clones_root_only (d : Deps) (w : World) :
    (∀ (R : Ptr) (v : Logger), w.load R = some v → v.parent = none →
      ∃ p w1 y, «E路径» d w R "" = some (p, w1) ∧ p ≠ R ∧ w.load p = none ∧
        w1.load p = some y ∧ y.parent = some R ∧ y.config = v.config ∧
        y.config.Path = v.config.Path ∧ y.ctx = v.ctx ∧ w1.load R = some v) ∧
    (∀ (D : Ptr) (v : Logger), w.load D = some v → v.parent ≠ none →
      «E路径» d w D "" = some (D, w)) := by
  constructor
  · intro R v hv hp
    have h := run_root d (Call.Path "") hv hp rfl
    refine ⟨_, _, _, h, Nat.ne_of_gt (lt_of_load hv), load_none_length w, load_fresh _ _ _,
      ?_, ?_, ?_, ?_, load_append_of_load hv _ _⟩ <;> simp [Call.effect]
  · intro D v hv hp
    have h := run_derived d (Call.Path "") hv hp
    have h2 : (Call.Path "").run d w D = «E路径» d w D "" := rfl
    rw [← h2, h]
    simp [Call.effect, Call.errors, set_self hv]

theorem empty_path_clones_root_only_witness :
    (∃ p w1 y, «E路径» exampleDeps exampleWorld 0 "" = some (p, w1) ∧ p ≠ 0 ∧
        exampleWorld.load p = none ∧
        w1.load p = some y ∧ y.parent = some 0 ∧ y.config = exampleRoot.config ∧
        y.config.Path = exampleRoot.config.Path ∧ y.ctx = exampleRoot.ctx ∧
        w1.load 0 = some exampleRoot) ∧
    «E路径» exampleDeps exampleWorld 1 "" = some (1, exampleWorld) :=
  ⟨(empty_path_clones_root_only exampleDeps exampleWorld).1 0 exampleRoot rfl rfl,
    (empty_path_clones_root_only exampleDeps exampleWorld).2 1
      { exampleRoot with parent := some 0 } rfl (by decide)⟩

/-- C14: `E堆栈(enabled, skip...)` yields a logger whose stack-enabled state is
`enabled`; with a non-empty skip list its stack-skip is the first element of the
list, and with an empty one its stack-skip is the one the logger had before
the call. -/
theorem stack_sets_enabled_and_skip (w : World) (l : Ptr) (v : Logger) (enabled : Bool)
    (hv : w.load l = some v) :
    (∃ p w1 y, «E堆栈» w l enabled [] = some (p, w1) ∧ w1.load p = some y ∧
      y.config.StackEnabled = enabled ∧ y.config.StackSkip = v.config.StackSkip) ∧
    (∀ (s0 : Int) (rest : List Int),
      ∃ p w1 y, «E堆栈» w l enabled (s0 :: rest) = some (p, w1) ∧ w1.load p = some y ∧
        y.config.StackEnabled = enabled ∧ y.config.StackSkip = s0) := by
  constructor
  · obtain ⟨p, w1, hrun, hload, -⟩ := run_load exampleDeps (Call.Stack enabled []) hv rfl
    exact ⟨p, w1, _, hrun, hload, by simp [Call.effect], by simp [Call.effect]⟩
  · intro s0 rest
    obtain ⟨p, w1, hrun, hload, -⟩ :=
      run_load exampleDeps (Call.Stack enabled (s0 :: rest)) hv rfl
    exact ⟨p, w1, _, hrun, hload, by simp [Call.effect], by simp [Call.effect]⟩

theorem stack_sets_enabled_and_skip_witness :
    exampleWorld.load 0 = some exampleRoot ∧
    (∃ p w1 y, «E堆栈» exampleWorld 0 false [] = some (p, w1) ∧ w1.load p = some y ∧
      y.config.StackEnabled = false ∧ y.config.StackSkip = exampleRoot.config.StackSkip) ∧
    (∃ p w1 y, «E堆栈» exampleWorld 0 false [3] = some (p, w1) ∧ w1.load p = some y ∧
      y.config.StackEnabled = false ∧ y.config.StackSkip = 3) :=
  ⟨rfl, (stack_sets_enabled_and_skip exampleWorld 0 exampleRoot false rfl).1,
    (stack_sets_enabled_and_skip exampleWorld 0 exampleRoot false rfl).2 3 []⟩

/-- C15: `E堆栈过滤(filter)` yields a logger with stack capture enabled, whether or
not it was enabled before, with stack filter `filter`, and with the stack-skip
the logger had before the call. -/
theorem stack_filter_enables_stack (w : World) (l : Ptr) (v : Logger) (filter : String)
    (hv : w.load l = some v) :
    ∃ p w1 y, «E堆栈过滤» w l filter = some (p, w1) ∧ w1.load p = some y ∧
      y.config.StackEnabled = true ∧ y.config.StackFilter = filter ∧
      y.config.StackSkip = v.config.StackSkip := by
  obtain ⟨p, w1, hrun, hload, -⟩ := run_load exampleDeps (Call.StackWithFilter filter) hv rfl
  exact ⟨p, w1, _, hrun, hload, rfl, rfl, rfl⟩

theorem stack_filter_enables_stack_witness :
    exampleWorld.load 0 = some exampleRoot ∧
    ∃ p w1 y, «E堆栈过滤» exampleWorld 0 "/vendor/" = some (p, w1) ∧ w1.load p = some y ∧
      y.config.StackEnabled = true ∧ y.config.StackFilter = "/vendor/" ∧
      y.config.StackSkip = exampleRoot.config.StackSkip :=
  ⟨rfl, stack_filter_enables_stack exampleWorld 0 exampleRoot "/vendor/" rfl⟩

/-- C16: `E上下文(ctx, keys...)` with a present context yields a logger whose
context is `ctx`; with a non-empty key list its context keys are that list, and
with an empty one its context keys are those the logger had before the call. -/
theorem ctx_sets_context_and_keys (w : World) (l : Ptr) (v : Logger) (c : Context)
    (hv : w.load l = some v) :
    (∃ p w1 y, «E上下文» w l (some c) [] = some (p, w1) ∧ w1.load p = some y ∧
      y.ctx = some c ∧ y.config.CtxKeys = v.config.CtxKeys) ∧
    (∀ (k : Key) (ks : List Key),
      ∃ p w1 y, «E上下文» w l (some c) (k :: ks) = some (p, w1) ∧ w1.load p = some y ∧
        y.ctx = some c ∧ y.config.CtxKeys = k :: ks) := by
  constructor
  · obtain ⟨p, w1, hrun, hload, -⟩ := run_load exampleDeps (Call.Ctx (some c) []) hv rfl
    exact ⟨p, w1, _, hrun, hload, by simp [Call.effect], by simp [Call.effect]⟩
  · intro k ks
    obtain ⟨p, w1, hrun, hload, -⟩ :=
      run_load exampleDeps (Call.Ctx (some c) (k :: ks)) hv rfl
    exact ⟨p, w1, _, hrun, hload, by simp [Call.effect], by simp [Call.effect]⟩

theorem ctx_sets_context_and_keys_witness :
    exampleWorld.load 1 = some { exampleRoot with parent := some 0 } ∧
    (∃ p w1 y, «E上下文» exampleWorld 1 (some 8) [] = some (p, w1) ∧ w1.load p = some y ∧
      y.ctx = some 8 ∧ y.config.CtxKeys = exampleRoot.config.CtxKeys) ∧
    (∃ p w1 y, «E上下文» exampleWorld 1 (some 8) ["uid", "rid"] = some (p, w1) ∧
      w1.load p = some y ∧ y.ctx = some 8 ∧ y.config.CtxKeys = ["uid", "rid"]) :=
  ⟨rfl,
    (ctx_sets_context_and_keys exampleWorld 1 { exampleRoot with parent := some 0 } 8 rfl).1,
    (ctx_sets_context_and_keys exampleWorld 1 { exampleRoot with parent := some 0 } 8 rfl).2
      "uid" ["rid"]⟩

theorem testBit_or_of_testBit (f m i : Nat) (h : f.testBit i = true) :
    (f ||| m).testBit i = true := by
  simp [Nat.testBit_or, h]

/-- C17: `E行号` only adds one bit.  For every logger L with flags F, `L.E行号(false)`
and `L.E行号()` both yield flags `F ||| F_FILE_SHORT` and `L.E行号(true)` yields
flags `F ||| F_FILE_LONG`; every bit set in F is set in the flags of the
returned logger. -/
theorem line_only_adds_a_bit (d : Deps) (w : World) (l : Ptr) (v : Logger)
    (hv : w.load l = some v) :
    (∃ p w1 y, «E行号» d w l [false] = some (p, w1) ∧ w1.load p = some y ∧
      y.config.Flags = v.config.Flags ||| d.F_FILE_SHORT ∧
      ∀ i, v.config.Flags.testBit i = true → y.config.Flags.testBit i = true) ∧
    (∃ p w1 y, «E行号» d w l [] = some (p, w1) ∧ w1.load p = some y ∧
      y.config.Flags = v.config.Flags ||| d.F_FILE_SHORT ∧
      ∀ i, v.config.Flags.testBit i = true → y.config.Flags.testBit i = true) ∧
    (∃ p w1 y, «E行号» d w l [true] = some (p, w1) ∧ w1.load p = some y ∧
      y.config.Flags = v.config.Flags ||| d.F_FILE_LONG ∧
      ∀ i, v.config.Flags.testBit i = true → y.config.Flags.testBit i = true) := by
  refine ⟨?_, ?_, ?_⟩
  · obtain ⟨p, w1, hrun, hload, -⟩ := run_load d (Call.Line [false]) hv rfl
    exact ⟨p, w1, _, hrun, hload, rfl, fun i hi => testBit_or_of_testBit _ _ i hi⟩
  · obtain ⟨p, w1, hrun, hload, -⟩ := run_load d (Call.Line []) hv rfl
    exact ⟨p, w1, _, hrun, hload, rfl, fun i hi => testBit_or_of_testBit _ _ i hi⟩
  · obtain ⟨p, w1, hrun, hload, -⟩ := run_load d (Call.Line [true]) hv rfl
    exact ⟨p, w1, _, hrun, hload, rfl, fun i hi => testBit_or_of_testBit _ _ i hi⟩

theorem line_only_adds_a_bit_witness :
    exampleWorldLong.load 1
      = some { exampleRoot with parent := some 0, config := { exampleConfig with Flags := 2 } } ∧
    ∃ p w1 y, «E行号» exampleDeps exampleWorldLong 1 [false] = some (p, w1) ∧
      w1.load p = some y ∧
      y.config.Flags = 2 ||| exampleDeps.F_FILE_SHORT ∧
      ∀ i, (2 : Nat).testBit i = true → y.config.Flags.testBit i = true :=
  ⟨rfl, (line_only_adds_a_bit exampleDeps exampleWorldLong 1
    { exampleRoot with parent := some 0, config := { exampleConfig with Flags := 2 } } rfl).1⟩

theorem run_derived_frame (d : Deps) (c : Call) {w : World} {D : Ptr} {v : Logger}
    (hv : w.load D = some v) (hp : v.parent ≠ none) :
    ∃ w1, c.run d w D = some (D, w1) ∧ w1.load D = some (c.effect d v) ∧
      (∀ q, q ≠ D → w1.load q = w.load q) ∧ w1.intlog = w.intlog ++ c.errors d v :=
  ⟨_, run_derived d c hv hp, load_set hv _ _, fun _ hq => load_set_ne w hq _ _, rfl⟩

/-- C18: frame of the single-field setters.  On a derived logger D each of `E级别`,
`E文件`, `E跳过`, `E重定向`, `E控制台` and `E头` returns D, and D's record after the
call is its record before the call with the one configuration field the method
names replaced (context, parent and every other field as before); the loggers
at the other addresses are as before. -/
theorem single_field_setters_frame (w : World) (D : Ptr) (v : Logger)
    (hv : w.load D = some v) (hder : v.parent ≠ none) :
    (∀ level : Int, ∃ w1, «E级别» w D level = some (D, w1) ∧
      w1.load D = some { v with config := { v.config with Level := level } } ∧
      ∀ q, q ≠ D → w1.load q = w.load q) ∧
    (∀ file : String, ∃ w1, «E文件» w D file = some (D, w1) ∧
      w1.load D = some { v with config := { v.config with File := file } } ∧
      ∀ q, q ≠ D → w1.load q = w.load q) ∧
    (∀ skip : Int, ∃ w1, «E跳过» w D skip = some (D, w1) ∧
      w1.load D = some { v with config := { v.config with StackSkip := skip } } ∧
      ∀ q, q ≠ D → w1.load q = w.load q) ∧
    (∀ writer : Option WriterRef, ∃ w1, «E重定向» w D writer = some (D, w1) ∧
      w1.load D = some { v with config := { v.config with Writer := writer } } ∧
      ∀ q, q ≠ D → w1.load q = w.load q) ∧
    (∀ enabled : List Bool, ∃ w1, «E控制台» w D enabled = some (D, w1) ∧
      w1.load D
        = some { v with config := { v.config with StdoutPrint := !firstIsFalse enabled } } ∧
      ∀ q, q ≠ D → w1.load q = w.load q) ∧
    (∀ enabled : List Bool, ∃ w1, «E头» w D enabled = some (D, w1) ∧
      w1.load D
        = some { v with config := { v.config with HeaderPrint := !firstIsFalse enabled } } ∧
      ∀ q, q ≠ D → w1.load q = w.load q) := by
  refine ⟨fun level => ?_, fun file => ?_, fun skip => ?_, fun writer => ?_,
    fun enabled => ?_, fun enabled => ?_⟩
  · obtain ⟨w1, h1, h2, h3, -⟩ := run_derived_frame exampleDeps (Call.Level level) hv hder
    exact ⟨w1, h1, h2, h3⟩
  · obtain ⟨w1, h1, h2, h3, -⟩ := run_derived_frame exampleDeps (Call.File file) hv hder
    exact ⟨w1, h1, h2, h3⟩
  · obtain ⟨w1, h1, h2, h3, -⟩ := run_derived_frame exampleDeps (Call.Skip skip) hv hder
    exact ⟨w1, h1, h2, h3⟩
  · obtain ⟨w1, h1, h2, h3, -⟩ := run_derived_frame exampleDeps (Call.To writer) hv hder
    exact ⟨w1, h1, h2, h3⟩
  · obtain ⟨w1, h1, h2, h3, -⟩ := run_derived_frame exampleDeps (Call.Stdout enabled) hv hder
    exact ⟨w1, h1, h2, h3⟩
  · obtain ⟨w1, h1, h2, h3, -⟩ := run_derived_frame exampleDeps (Call.Header enabled) hv hder
    exact ⟨w1, h1, h2, h3⟩

theorem single_field_setters_frame_witness :
    exampleWorld.load 1 = some { exampleRoot with parent := some 0 } ∧
    ({ exampleRoot with parent := some 0 } : Logger).parent ≠ none ∧
    ∃ w1, «E文件» exampleWorld 1 "app.log" = some (1, w1) ∧
      w1.load 1 = some { exampleRoot with
        parent := some 0, config := { exampleConfig with File := "app.log" } } ∧
      ∀ q, q ≠ 1 → w1.load q = exampleWorld.load q :=
  ⟨rfl, by decide,
    (single_field_setters_frame exampleWorld 1 { exampleRoot with parent := some 0 } rfl
      (by decide)).2.1 "app.log"⟩

theorem firstIsFalse_cons (b : Bool) (rest : List Bool) :
    firstIsFalse (b :: rest) = firstIsFalse [b] := by
  simp [firstIsFalse]

theorem firstIsTrue_cons (b : Bool) (rest : List Bool) :
    firstIsTrue (b :: rest) = firstIsTrue [b] := by
  simp [firstIsTrue]

/-- C20: only the first variadic argument is consulted.  On every logger, `E控制台`,
`E头`, `E异步` and `E行号` called with a list of one or more arguments give the
result of the call with the first argument alone, and so does `E堆栈` for its
skip list; `E控制台(false, true)` yields a logger with stdout printing disabled
and `E堆栈(enabled, s0, s1, ...)` one with stack-skip s0. -/
theorem only_first_variadic_consulted (d : Deps) (w : World) (l : Ptr) :
    (∀ (b : Bool) (rest : List Bool), «E控制台» w l (b :: rest) = «E控制台» w l [b]) ∧
    (∀ (b : Bool) (rest : List Bool), «E头» w l (b :: rest) = «E头» w l [b]) ∧
    (∀ (b : Bool) (rest : List Bool), «E异步» w l (b :: rest) = «E异步» w l [b]) ∧
    (∀ (b : Bool) (rest : List Bool), «E行号» d w l (b :: rest) = «E行号» d w l [b]) ∧
    (∀ (enabled : Bool) (s0 : Int) (rest : List Int),
      «E堆栈» w l enabled (s0 :: rest) = «E堆栈» w l enabled [s0]) ∧
    (∀ v : Logger, w.load l = some v →
      ∃ p w1 y, «E控制台» w l [false, true] = some (p, w1) ∧ w1.load p = some y ∧
        y.config.StdoutPrint = false) ∧
    (∀ (v : Logger) (enabled : Bool) (s0 s1 : Int) (rest : List Int), w.load l = some v →
      ∃ p w1 y, «E堆栈» w l enabled (s0 :: s1 :: rest) = some (p, w1) ∧
        w1.load p = some y ∧ y.config.StackSkip = s0) := by
  refine ⟨fun b rest => ?_, fun b rest => ?_, fun b rest => ?_, fun b rest => ?_,
    fun enabled s0 rest => ?_, fun v hv => ?_, fun v enabled s0 s1 rest hv => ?_⟩
  · simp only [«E控制台», firstIsFalse_cons b rest]
  · simp only [«E头», firstIsFalse_cons b rest]
  · simp only [«E异步», firstIsFalse_cons b rest]
  · simp only [«E行号», firstIsTrue_cons b rest]
  · simp [«E堆栈»]
  · obtain ⟨p, w1, hrun, hload, -⟩ := run_load d (Call.Stdout [false, true]) hv rfl
    exact ⟨p, w1, _, hrun, hload, rfl⟩
  · obtain ⟨p, w1, hrun, hload, -⟩ :=
      run_load d (Call.Stack enabled (s0 :: s1 :: rest)) hv rfl
    exact ⟨p, w1, _, hrun, hload, by simp [Call.effect]⟩

theorem only_first_variadic_consulted_witness :
    exampleWorld.load 0 = some exampleRoot ∧
    (∃ p w1 y, «E控制台» exampleWorld 0 [false, true] = some (p, w1) ∧
      w1.load p = some y ∧ y.config.StdoutPrint = false) ∧
    (∃ p w1 y, «E堆栈» exampleWorld 0 true (4 :: 9 :: []) = some (p, w1) ∧
      w1.load p = some y ∧ y.config.StackSkip = 4) :=
  ⟨rfl,
    (only_first_variadic_consulted exampleDeps exampleWorld 0).2.2.2.2.2.1 exampleRoot rfl,
    (only_first_variadic_consulted exampleDeps exampleWorld 0).2.2.2.2.2.2 exampleRoot true
      4 9 [] rfl⟩

theorem catSetsPath_iff (d : Deps) (v : Logger) (category : String) :
    catSetsPath d v category = true ↔
      v.config.Path ≠ "" ∧ d.pathOk (d.Join v.config.Path category) = true := by
  simp [catSetsPath]

theorem cat_sets_path (d : Deps) {w : World} {l : Ptr} {v : Logger} (a : String)
    (hv : w.load l = some v) (hset : catSetsPath d v a = true) :
    ∃ A w1 y1, «E分类» d w l a = some (A, w1) ∧ w1.load A = some y1 ∧
      y1.parent ≠ none ∧ y1.config.Path = d.Join v.config.Path a := by
  obtain ⟨hp, ok⟩ := (catSetsPath_iff d v a).mp hset
  obtain ⟨A, w1, hrun, hload, -⟩ := run_load d (Call.Cat a) hv rfl
  refine ⟨A, w1, _, hrun, hload, ?_, ?_⟩
  · rw [effect_parent]
    by_cases h : v.parent = none <;> simp [h]
  · simp [Call.effect, hp, ok]

theorem cat_sets_path_derived (d : Deps) {w : World} {A : Ptr} {y : Logger} (b : String)
    (hy : w.load A = some y) (hder : y.parent ≠ none) (hset : catSetsPath d y b = true) :
    ∃ w2 y2, «E分类» d w A b = some (A, w2) ∧ w2.load A = some y2 ∧
      y2.config.Path = d.Join y.config.Path b := by
  obtain ⟨hp, ok⟩ := (catSetsPath_iff d y b).mp hset
  refine ⟨_, _, run_derived d (Call.Cat b) hy hder, load_set hy _ _, ?_⟩
  simp [Call.effect, hp, ok]

/-- C19, as the claim states it, fails: with the modelled path join, on a root
logger with path `/logs` and the non-empty category `/`, both calls of
`E分类("/").E分类("/")` set the path without an error, and the logger has the
path after the second call that it had after the first. -/
theorem category_separator_twice_same_path :
    ("/" : String) ≠ "" ∧
    ∃ v A w1 y1 w2 y2, exampleWorldLogs.load 0 = some v ∧ v.parent = none ∧
      catSetsPath exampleDeps v "/" = true ∧
      «E分类» exampleDeps exampleWorldLogs 0 "/" = some (A, w1) ∧ w1.load A = some y1 ∧
      catSetsPath exampleDeps y1 "/" = true ∧
      «E分类» exampleDeps w1 A "/" = some (A, w2) ∧ w2.load A = some y2 ∧
      w2.intlog = [] ∧ y2.config.Path = y1.config.Path :=
  ⟨by decide, _, 2, _, _, _, _, rfl, rfl, by decide, rfl, rfl, by decide, rfl, rfl, rfl,
    by decide⟩

/-- C19, amended: category is cumulative.  For every logger L with non-empty path p
and categories a and b for which setting the path succeeds in both calls (each
call passes the guard on the path and `SetPath` returns no error),
`L.E分类(a).E分类(b)` yields the path join(join(p, a), b): the second call nests
under the path left by the first one, not under p.  So `L.E分类(a).E分类(a)` has a
path other than that of `L.E分类(a)` exactly when join(join(p, a), a) is other
than join(p, a). -/
theorem category_is_cumulative (d : Deps) (w : World) (l : Ptr) (v : Logger)
    (a b : String) (hv : w.load l = some v) (hfirst : catSetsPath d v a = true) :
    ∃ A w1 y1, «E分类» d w l a = some (A, w1) ∧ w1.load A = some y1 ∧
      y1.config.Path = d.Join v.config.Path a ∧
      (catSetsPath d y1 b = true →
        ∃ w2 y2, «E分类» d w1 A b = some (A, w2) ∧ w2.load A = some y2 ∧
          y2.config.Path = d.Join (d.Join v.config.Path a) b) ∧
      (catSetsPath d y1 a = true →
        ∃ w2 y2, «E分类» d w1 A a = some (A, w2) ∧ w2.load A = some y2 ∧
          (y2.config.Path ≠ y1.config.Path ↔
            d.Join (d.Join v.config.Path a) a ≠ d.Join v.config.Path a)) := by
  obtain ⟨A, w1, y1, hrun, hload, hder, hpath⟩ := cat_sets_path d a hv hfirst
  refine ⟨A, w1, y1, hrun, hload, hpath, fun hb => ?_, fun ha => ?_⟩
  · obtain ⟨w2, y2, hrun2, hload2, hpath2⟩ := cat_sets_path_derived d b hload hder hb
    exact ⟨w2, y2, hrun2, hload2, by rw [hpath2, hpath]⟩
  · obtain ⟨w2, y2, hrun2, hload2, hpath2⟩ := cat_sets_path_derived d a hload hder ha
    exact ⟨w2, y2, hrun2, hload2, by rw [hpath2, hpath]⟩

theorem category_is_cumulative_witness :
    exampleWorldLogs.load 0
      = some { exampleRoot with config := { exampleConfig with Path := "/logs" } } ∧
    catSetsPath exampleDeps
      { exampleRoot with config := { exampleConfig with Path := "/logs" } } "app" = true ∧
    ∃ A w1 y1, «E分类» exampleDeps exampleWorldLogs 0 "app" = some (A, w1) ∧
      w1.load A = some y1 ∧ y1.config.Path = "/logs/app" ∧
      catSetsPath exampleDeps y1 "user" = true ∧ catSetsPath exampleDeps y1 "app" = true ∧
      (∃ w2 y2, «E分类» exampleDeps w1 A "user" = some (A, w2) ∧ w2.load A = some y2 ∧
        y2.config.Path = "/logs/app/user") ∧
      (∃ w2 y2, «E分类» exampleDeps w1 A "app" = some (A, w2) ∧ w2.load A = some y2 ∧
        y2.config.Path ≠ y1.config.Path) := by
  obtain ⟨A, w1, y1, hrun, hload, hpath, hb, ha⟩ :=
    category_is_cumulative exampleDeps exampleWorldLogs 0
      { exampleRoot with config := { exampleConfig with Path := "/logs" } } "app" "user"
      rfl (by decide)
  have hp : y1.config.Path = "/logs/app" := by rw [hpath]; decide
  have hsb : catSetsPath exampleDeps y1 "user" = true := by
    rw [catSetsPath_iff, hp]; decide
  have hsa : catSetsPath exampleDeps y1 "app" = true := by
    rw [catSetsPath_iff, hp]; decide
  refine ⟨rfl, by decide, A, w1, y1, hrun, hload, hp, hsb, hsa, ?_, ?_⟩
  · obtain ⟨w2, y2, h1, h2, h3⟩ := hb hsb
    exact ⟨w2, y2, h1, h2, by rw [h3]; decide⟩
  · obtain ⟨w2, y2, h1, h2, h3⟩ := ha hsa
    exact ⟨w2, y2, h1, h2, h3.mpr (by decide)⟩

end Glog
